import Mathlib

/-!
# Verification of the go-fluency worker-pool / processor examples

Shallow embedding of the concurrency and CRUD tutorial code in
src/examples (example2.go, example3.go, example4.go), together with
proofs of the spec's testable properties.

Go strings are modelled as lists of byte values (Nat, each < 256 in
practice; the definitions are total over Nat).  Go errors are modelled
by an explicit error datatype recording which package-level sentinel
(ErrInvalidInput / ErrNotFound) an error wraps, mirroring the
fmt.Errorf("%w: ...", sentinel) idiom of the source.
-/

set_option autoImplicit false

/-- A Go string viewed byte-by-byte, as in example3's processItem loop. -/
abbrev Str := List Nat

/-- The package-level error sentinels of example3/example4:
var ErrInvalidInput = errors.New("invalid input") and
var ErrNotFound = errors.New("not found"). -/
inductive Sentinel where
  | invalidInput
  | notFound
deriving DecidableEq, Repr

/-- A Go error value: either one produced by fmt.Errorf("%w: msg", s),
which wraps the sentinel s (errors.Is succeeds on it), or a plain error
with no wrapped sentinel (fmt.Errorf / errors.New without %w). -/
inductive GoError where
  | wraps (s : Sentinel) (msg : String)
  | plain (msg : String)
deriving DecidableEq, Repr

/-- errors.Is(e, sentinel): whether the error wraps the given sentinel. -/
def GoError.isSentinel : GoError → Sentinel → Bool
  | .wraps s _, t => s = t
  | .plain _, _ => false

namespace processor

/-!
## example3 (package example6 in the concatenated file): the data processor

Source: src/examples/example3/example3.go, lines 275-437.
-/

/-- One byte of processItem's loop body:
if item[i] >= 'a' && item[i] <= 'z' { buf = append(buf, item[i]-32) }
else { buf = append(buf, item[i]) }.  'a' = 97, 'z' = 122. -/
def upperByte (b : Nat) : Nat :=
  if 97 ≤ b ∧ b ≤ 122 then b - 32 else b

/-- processor.processItem (example3.go:293-311): builds the output by
appending, for each input byte in order, its uppercased form.  The
sync.Pool buffer is a memory optimisation with no observable effect on
the returned string. -/
def processItem (item : Str) : Str :=
  item.map upperByte

/-- processor.Process (example3.go:314-333) with no cancellation
(ctx.Done() never fires, so the select always takes the default branch):
rejects empty data with an ErrInvalidInput-wrapping error, otherwise
returns result with result[i] = processItem(data[i]). -/
def Process (data : List Str) : Except GoError (List Str) :=
  if data = [] then
    .error (.wraps .invalidInput "empty data")
  else
    .ok (data.map processItem)

/-- The batch loop of processor.ProcessBatch (example3.go:348-366): while
items remain, process the consecutive index range
[processed, min (processed+bs) len) and advance.  Writing
result[processed..end) is embedded as emitting the processed chunk; the
concatenation of the chunks is the result slice. -/
def batchLoop (bs : Nat) (hbs : 0 < bs) (remaining : List Str) : List Str :=
  if remaining = [] then
    []
  else
    (remaining.take bs).map processItem ++ batchLoop bs hbs (remaining.drop bs)
termination_by remaining.length
decreasing_by
  simp only [List.length_drop]
  rename_i hne
  have hpos : 0 < remaining.length := List.length_pos.mpr hne
  omega

/-- processor.ProcessBatch (example3.go:336-370) with no cancellation:
rejects empty data; a non-positive batchSize defaults to 100; then runs
the batch loop.  batchSize is a Go int, modelled as Int. -/
def ProcessBatch (data : List Str) (batchSize : Int) : Except GoError (List Str) :=
  if data = [] then
    .error (.wraps .invalidInput "empty data")
  else
    if h : batchSize ≤ 0 then
      .ok (batchLoop 100 (by omega) data)
    else
      .ok (batchLoop batchSize.toNat (by omega) data)

/-- The result-collection loop of processor.ProcessConcurrent
(example3.go:427-431): result := make([]string, len(data)); for each
arriving (index, value) pair, result[r.index] = r.value.  A slice of
Go's zero-value strings is List.replicate n [] and the indexed write is
List.set. -/
def collectResults (n : Nat) (pairs : List (Nat × Str)) : List Str :=
  pairs.foldl (fun acc p => acc.set p.1 p.2) (List.replicate n [])

/-- processor.ProcessConcurrent (example3.go:373-437) with no
cancellation.  Empty data is rejected with an ErrInvalidInput-wrapping
error before any worker starts.  Otherwise every index 0..len-1 is sent
on the jobs channel exactly once; the workers' interleaving determines
only the order in which (index, processItem data[index]) pairs reach the
results channel, abstracted here as the list order, a permutation of
the job indices.  The workers count only affects scheduling, never which
pairs are produced. -/
def ProcessConcurrent (data : List Str) (workers : Int) (order : List Nat) :
    Except GoError (List Str) :=
  if data = [] then
    .error (.wraps .invalidInput "empty data")
  else
    .ok (collectResults data.length
      (order.map (fun i => (i, processItem (data.getD i [])))))

end processor

namespace example2

/-!
## example2: worker pool and pipeline

Source: src/examples/example2/example2.go.
-/

/-- The per-job transform of Worker.Start (example2.go:45):
result := job * 2.  Jobs are Go ints. -/
def workerTransform (job : Int) : Int :=
  job * 2

/-- The squaring stage of RunPipeline (example2.go:136): squares <- n*n. -/
def stageSquare (n : Int) : Int :=
  n * n

/-- The increment stage of RunPipeline (example2.go:148): results <- s+1. -/
def stageAddOne (s : Int) : Int :=
  s + 1

/-- The generator stage of RunPipeline (example2.go:118-128) emits 1..5;
the outputs of the full three-stage pipeline with no cancellation. -/
def pipelineOutputs : List Int :=
  ((List.range 5).map (fun i => (i : Int) + 1)).map
    (fun n => stageAddOne (stageSquare n))

/-- The dispatcher states of example2.Run (spec section 4.5):
Idle before the workers start; Running while jobs remain to be drained,
with a flag recording whether the context deadline has elapsed
(ctx.Err() == context.DeadlineExceeded); Completed / TimedOut after Run
returns. -/
inductive DState where
  | idle
  | running (jobsLeft : Nat) (deadlineElapsed : Bool)
  | completed
  | timedOut
deriving DecidableEq, Repr

/-- The transitions of example2.Run (example2.go:54-104).  start: the
dispatcher launches workers and producer for m jobs.  work: a worker
drains one job (select takes the jobs branch).  tick: the 2-second
deadline elapses, tripping the context — the timer is free-running, so
this can happen at any point while Run is in flight, including after
the last job is drained but before the ctx.Err() check that follows
wg.Wait().  timeout: with the context tripped, workers and producer
exit via ctx.Done(), wg.Wait() returns, and
ctx.Err() == DeadlineExceeded makes Run return the "processing timed
out" error.  complete: all jobs drained, close(jobs) ends the worker
loops, wg.Wait() returns, and ctx.Err() == nil makes Run return nil. -/
inductive DStep : DState → DState → Prop where
  | start (m : Nat) : DStep .idle (.running m false)
  | work (n : Nat) : DStep (.running (n + 1) false) (.running n false)
  | tick (n : Nat) : DStep (.running n false) (.running n true)
  | timeout (n : Nat) : DStep (.running n true) .timedOut
  | complete : DStep (.running 0 false) .completed

/-- The error value example2.Run returns (example2.go:99-103): the
"processing timed out" error when ctx.Err() == context.DeadlineExceeded,
nil otherwise.  none models Go's nil error. -/
def runErr (deadlineExceeded : Bool) : Option GoError :=
  if deadlineExceeded then some (.plain "processing timed out") else none

end example2

namespace example4

/-!
## example4: the in-memory User CRUD service

Source: src/examples/example4/example4.go.  The Go map[int]*User is
modelled as a function Int → Option User; time.Now() is an explicit
now parameter.
-/

/-- example4.User (example4.go:17-22). -/
structure User where
  id : Int
  name : String
  age : Int
  createdAt : Nat
deriving DecidableEq, Repr

/-- example4.UserService (example4.go:25-27): the users map. -/
structure UserService where
  users : Int → Option User

/-- NewUserService (example4.go:30-34): an empty map. -/
def NewUserService : UserService :=
  ⟨fun _ => none⟩

/-- UserService.ValidateUser (example4.go:37-47): empty name, or age
outside [0,150], yields an ErrInvalidInput-wrapping error; none models
the nil error on well-formed input. -/
def ValidateUser (user : User) : Option GoError :=
  if user.name = "" then
    some (.wraps .invalidInput "name cannot be empty")
  else if user.age < 0 ∨ user.age > 150 then
    some (.wraps .invalidInput "age must be between 0 and 150")
  else
    none

/-- UserService.CreateUser (example4.go:50-65): validate, reject a
duplicate ID with a plain error, otherwise stamp CreatedAt and insert.
Returns the Go error together with the service state after the call
(the Go method mutates s.users in place). -/
def CreateUser (now : Nat) (s : UserService) (user : User) :
    Option GoError × UserService :=
  match ValidateUser user with
  | some e => (some e, s)
  | none =>
    match s.users user.id with
    | some _ =>
      (some (.plain ("user with ID " ++ toString user.id ++ " already exists")), s)
    | none =>
      let u := { user with createdAt := now }
      (none, ⟨fun x => if x = user.id then some u else s.users x⟩)

/-- UserService.GetUser (example4.go:68-73): a missing ID yields
(nil, error wrapping ErrNotFound); Except.error carries no User, which
models the nil pointer returned alongside the error. -/
def GetUser (s : UserService) (id : Int) : Except GoError User :=
  match s.users id with
  | none => .error (.wraps .notFound ("user with ID " ++ toString id))
  | some user => .ok user

end example4

namespace example3user

/-!
## example3's User service (example3.go:56-125)

Same store shape as example4's, but validation errors are the
ValidationError struct (wrapping a plain fmt.Errorf message, no
sentinel) and CreateUser wraps every failure in a ProcessingError.
Only the pieces claim C9 needs are embedded.
-/

/-- UserService.ValidateUser (example3.go:68-86): a ValidationError
(which wraps a plain error, not a sentinel) on empty name or age
outside [0,150]. -/
def validateUser (user : example4.User) : Option GoError :=
  if user.name = "" then
    some (.plain "validation failed for field name: name cannot be empty")
  else if user.age < 0 ∨ user.age > 150 then
    some (.plain "validation failed for field age: age must be between 0 and 150")
  else
    none

/-- UserService.CreateUser (example3.go:89-112): validation failures and
duplicate IDs are returned wrapped in a ProcessingError with operation
create_user; on success CreatedAt is stamped and the user inserted. -/
def createUser (now : Nat) (s : example4.UserService) (user : example4.User) :
    Option GoError × example4.UserService :=
  match validateUser user with
  | some e => (some (.plain ("processing error during create_user: " ++
      match e with | .plain m => m | .wraps _ m => m)), s)
  | none =>
    match s.users user.id with
    | some _ =>
      (some (.plain ("processing error during create_user: user with ID " ++
        toString user.id ++ " already exists")), s)
    | none =>
      let u := { user with createdAt := now }
      (none, ⟨fun x => if x = user.id then some u else s.users x⟩)

end example3user

namespace taskService

/-!
## example3's Task service (example3.go:585-686, package example5)

The Go map[string]*Task is modelled as String → Option Task.
-/

/-- example5.Task (example3.go:585-592). -/
structure Task where
  id : String
  title : String
  description : String
  status : String
  createdAt : Nat
  updatedAt : Nat
deriving DecidableEq, Repr

/-- taskService (example3.go:604-606): the tasks map. -/
structure TaskService where
  tasks : String → Option Task

/-- taskService.validateTask (example3.go:616-626): empty title or empty
status yields an ErrInvalidInput-wrapping error. -/
def validateTask (task : Task) : Option GoError :=
  if task.title = "" then
    some (.wraps .invalidInput "title cannot be empty")
  else if task.status = "" then
    some (.wraps .invalidInput "status cannot be empty")
  else
    none

/-- taskService.Create (example3.go:629-643): validate, reject a
duplicate ID with a plain error, otherwise stamp CreatedAt and
UpdatedAt with now and insert. -/
def Create (now : Nat) (s : TaskService) (task : Task) :
    Option GoError × TaskService :=
  match validateTask task with
  | some e => (some e, s)
  | none =>
    match s.tasks task.id with
    | some _ =>
      (some (.plain ("task with ID " ++ task.id ++ " already exists")), s)
    | none =>
      let t := { task with createdAt := now, updatedAt := now }
      (none, ⟨fun x => if x = task.id then some t else s.tasks x⟩)

end taskService

namespace pool

/-!
## Worker-pool lifecycle (example2.go:31-96, example3.go:383-426)

A transition system for one run of the worker pool: a producer goroutine
feeding a jobs channel (closed by its defer once it stops, whether by
exhaustion or by observing ctx.Done()), N workers each looping on
select { ctx.Done / jobs }, and a context that may be cancelled by its
deadline at any moment.  In both call sites the jobs channel's capacity
equals the number of jobs (make(chan int, 10) for 10 jobs;
make(chan int, len(data))), so a send never blocks; the channel is
modelled as an unbounded queue.
-/

/-- A snapshot of one pool run: jobs the producer has not yet sent,
jobs buffered in the channel, whether the channel has been closed,
whether the context has been cancelled, and how many workers have not
yet called wg.Done(). -/
structure PoolState where
  pending : List Nat
  queued : List Nat
  closed : Bool
  cancelled : Bool
  active : Nat
deriving DecidableEq, Repr

/-- The interleaved steps of producer, deadline and workers.
send: the producer's select takes jobs <- i.
closeChan: the producer returns — all jobs sent, or ctx.Done observed,
  abandoning the unsent jobs — and its defer close(jobs) runs.
trip: the context deadline elapses (monotone: only from not-cancelled).
consume: a worker's select receives a job and processes it.
exitCancel: a worker's select takes <-ctx.Done() and returns (wg.Done).
exitClosed: a worker receives from the closed, drained channel
  (ok = false) and returns (wg.Done). -/
inductive PStep : PoolState → PoolState → Prop where
  | send (j : Nat) (rest queued : List Nat) (a : Nat) :
      PStep ⟨j :: rest, queued, false, false, a⟩ ⟨rest, queued ++ [j], false, false, a⟩
  | closeChan (pending queued : List Nat) (c : Bool) (a : Nat) :
      pending = [] ∨ c = true →
      PStep ⟨pending, queued, false, c, a⟩ ⟨[], queued, true, c, a⟩
  | trip (pending queued : List Nat) (cl : Bool) (a : Nat) :
      PStep ⟨pending, queued, cl, false, a⟩ ⟨pending, queued, cl, true, a⟩
  | consume (pending : List Nat) (j : Nat) (rest : List Nat) (cl c : Bool) (a : Nat) :
      PStep ⟨pending, j :: rest, cl, c, a + 1⟩ ⟨pending, rest, cl, c, a + 1⟩
  | exitCancel (pending queued : List Nat) (cl : Bool) (a : Nat) :
      PStep ⟨pending, queued, cl, true, a + 1⟩ ⟨pending, queued, cl, true, a⟩
  | exitClosed (pending : List Nat) (c : Bool) (a : Nat) :
      PStep ⟨pending, [], true, c, a + 1⟩ ⟨pending, [], true, c, a⟩

/-- A termination measure: every step strictly decreases it. -/
def poolMeasure (s : PoolState) : Nat :=
  2 * s.pending.length + s.queued.length + 2 * s.active +
    (if s.closed then 0 else 1) + (if s.cancelled then 0 else 1)

end pool

/-! ## Supporting lemmas -/

theorem upperByte_idem (b : Nat) :
    processor.upperByte (processor.upperByte b) = processor.upperByte b := by
  simp only [processor.upperByte]
  split_ifs <;> omega

theorem processItem_idem (item : Str) :
    processor.processItem (processor.processItem item) = processor.processItem item := by
  simp only [processor.processItem, List.map_map]
  exact List.map_congr_left fun b _ => upperByte_idem b

theorem batchLoop_eq_map_aux (bs : Nat) (hbs : 0 < bs) (n : Nat) :
    ∀ l : List Str, l.length ≤ n →
      processor.batchLoop bs hbs l = l.map processor.processItem := by
  induction n with
  | zero =>
    intro l hl
    have : l = [] := List.eq_nil_of_length_eq_zero (Nat.le_zero.mp hl)
    subst this
    rw [processor.batchLoop]
    simp
  | succ n ih =>
    intro l hl
    rw [processor.batchLoop]
    by_cases h : l = []
    · subst h
      simp
    · have hpos : 0 < l.length := List.length_pos.mpr h
      have hdrop : (l.drop bs).length ≤ n := by
        simp only [List.length_drop]
        omega
      simp only [if_neg h, ih (l.drop bs) hdrop, ← List.map_append,
        List.take_append_drop]

/-- The batch loop of ProcessBatch computes the same map as Process,
for every positive batch size. -/
theorem batchLoop_eq_map (bs : Nat) (hbs : 0 < bs) (l : List Str) :
    processor.batchLoop bs hbs l = l.map processor.processItem :=
  batchLoop_eq_map_aux bs hbs l.length l le_rfl

theorem foldl_set_length (f : Nat → Str) (order : List Nat) (acc : List Str) :
    (order.foldl (fun a j => a.set j (f j)) acc).length = acc.length := by
  induction order generalizing acc with
  | nil => rfl
  | cons j tl ih =>
    simp only [List.foldl_cons]
    rw [ih (acc.set j (f j)), List.length_set]

theorem foldl_set_getElem? (f : Nat → Str) (order : List Nat) (acc : List Str)
    (i : Nat) (hi : i < acc.length) :
    (order.foldl (fun a j => a.set j (f j)) acc)[i]? =
      if i ∈ order then some (f i) else acc[i]? := by
  induction order generalizing acc with
  | nil => simp
  | cons j tl ih =>
    have hi' : i < (acc.set j (f j)).length := by
      rw [List.length_set]
      exact hi
    simp only [List.foldl_cons, List.mem_cons]
    rw [ih (acc.set j (f j)) hi']
    by_cases hij : i = j
    · subst hij
      have hset : (acc.set i (f i))[i]? = some (f i) :=
        List.getElem?_set_eq_of_lt (f i) hi
      by_cases htl : i ∈ tl <;> simp [htl, hset]
    · have hset : (acc.set j (f j))[i]? = acc[i]? :=
        List.getElem?_set_ne (fun hh => hij hh.symm)
      by_cases htl : i ∈ tl <;> simp [htl, hij, hset]

/-- Reassembling any permutation of the indexed results yields the
in-order map: the collection loop of ProcessConcurrent is insensitive
to the arrival order of results. -/
theorem collectResults_perm (data : List Str) (order : List Nat)
    (hperm : order.Perm (List.range data.length)) :
    processor.collectResults data.length
        (order.map (fun i => (i, processor.processItem (data.getD i [])))) =
      data.map processor.processItem := by
  have hmem : ∀ i, i ∈ order ↔ i < data.length := by
    intro i
    rw [hperm.mem_iff, List.mem_range]
  unfold processor.collectResults
  rw [List.foldl_map]
  apply List.ext_getElem?
  intro i
  by_cases hi : i < data.length
  · have hacc : i < (List.replicate data.length ([] : Str)).length := by
      rw [List.length_replicate]
      exact hi
    rw [foldl_set_getElem? (fun j => processor.processItem (data.getD j []))
      order (List.replicate data.length []) i hacc]
    rw [if_pos ((hmem i).mpr hi)]
    rw [List.getElem?_map, List.getElem?_eq_getElem hi]
    simp [List.getD, List.getElem?_eq_getElem hi]
  · have h1 : (order.foldl
        (fun a j => a.set j (processor.processItem (data.getD j [])))
        (List.replicate data.length [])).length = data.length := by
      rw [foldl_set_length, List.length_replicate]
    rw [List.getElem?_eq_none, List.getElem?_eq_none]
    · rw [List.length_map]
      omega
    · rw [h1]
      omega

/-! ## Claim theorems -/

/-- C10: processor.processItem maps every input string to a string of the
same length in which each byte in 97..122 (ASCII a-z) is replaced by
that byte minus 32 (its ASCII uppercase) and every other byte is
unchanged; being a Lean function of the input alone it is pure, and it
is idempotent. -/
theorem processItem_spec (item : Str) :
    (processor.processItem item).length = item.length ∧
    (∀ i, (h : i < item.length) →
      (processor.processItem item)[i]? =
        some (if 97 ≤ item[i] ∧ item[i] ≤ 122 then item[i] - 32 else item[i])) ∧
    processor.processItem (processor.processItem item) = processor.processItem item := by
  refine ⟨?_, ?_, processItem_idem item⟩
  · simp [processor.processItem]
  · intro i h
    simp [processor.processItem, List.getElem?_map, List.getElem?_eq_getElem h,
      processor.upperByte]

/-- Witness for C10 at the concrete input "a." = [97, 46]. -/
theorem processItem_spec_witness :
    (0 : Nat) < ([97, 46] : Str).length ∧
    (processor.processItem [97, 46])[0]? = some 65 := by
  refine ⟨by decide, ?_⟩
  have h := (processItem_spec [97, 46]).2.1 0 (by decide)
  simpa using h

/-- C5: with the worker transform f(x) = 2x of Worker.Start, the jobs
[1,2,3] processed by the worker pool in any scheduling order (the
1-second timeout never trips, so no job is abandoned) yield the result
multiset \x7b2,4,6\x7d, whatever order the results arrive in. -/
theorem worker_doubling_multiset (order : List Int)
    (h : order.Perm [1, 2, 3]) :
    ((order.map example2.workerTransform : List Int) : Multiset Int) =
      {2, 4, 6} := by
  have hm := h.map example2.workerTransform
  rw [Multiset.coe_eq_coe.mpr hm]
  decide

/-- Witness for C5 at the scheduling order 2,1,3. -/
theorem worker_doubling_multiset_witness :
    ((([2, 1, 3].map example2.workerTransform : List Int)) : Multiset Int) =
      {2, 4, 6} :=
  worker_doubling_multiset [2, 1, 3] (by decide)

/-- C6: the pipeline stages square then +1 applied to the generated
inputs \x7b1,2,3,4,5\x7d produce the output multiset \x7b2,5,10,17,26\x7d. -/
theorem pipeline_output_multiset :
    (↑example2.pipelineOutputs : Multiset Int) = {2, 5, 10, 17, 26} := by
  decide

/-- C3 counterexample: a run in which every job is drained while the
deadline has not elapsed (jobsLeft = 0, flag still false), yet the
free-running 2-second timer then elapses before the ctx.Err() check
that follows wg.Wait(), and Run returns the timeout error anyway.  So
the timeout error is not returned only-if the deadline elapses before
all jobs are drained. -/
theorem dispatcher_timeout_after_drain :
    example2.DStep (.running 0 false) (.running 0 true) ∧
    example2.DStep (.running 0 true) .timedOut :=
  ⟨.tick 0, .timeout 0⟩

/-- C3 (amended): example2.Run returns the timeout error iff the context
deadline has elapsed (ctx.Err() == DeadlineExceeded) by the time of the
check after wg.Wait() — in particular whenever the deadline elapses
before all jobs are drained, but also when it elapses after the last
job is drained and before the check; Run completes normally (nil error)
iff all jobs are drained with the deadline not yet elapsed at the
check.  Neither terminal outcome has any outgoing transition, and the
timeout error is distinguished from the nil of normal completion. -/
theorem dispatcher_timeout_iff :
    (∀ n e, example2.DStep (.running n e) .timedOut ↔ e = true) ∧
    (∀ n e, example2.DStep (.running n e) .completed ↔ (n = 0 ∧ e = false)) ∧
    (∀ t, ¬ example2.DStep .completed t) ∧
    (∀ t, ¬ example2.DStep .timedOut t) ∧
    (∀ d, example2.runErr d = none ↔ d = false) := by
  refine ⟨?_, ?_, ?_, ?_, ?_⟩
  · intro n e
    constructor
    · intro h
      cases h
      rfl
    · intro h
      subst h
      exact .timeout n
  · intro n e
    constructor
    · intro h
      cases h
      exact ⟨rfl, rfl⟩
    · rintro ⟨rfl, rfl⟩
      exact .complete
  · intro t h
    cases h
  · intro t h
    cases h
  · intro d
    cases d <;> simp [example2.runErr]

/-- Witness for C3: the timed-out transition at a concrete Running state
with the deadline elapsed. -/
theorem dispatcher_timeout_iff_witness :
    example2.DStep (.running 3 true) .timedOut :=
  (dispatcher_timeout_iff.1 3 true).mpr rfl

/-- C8: in the worker-pool transition system, any state from which no
step is possible has zero active workers (so a stuck worker can only
exist while the producer, deadline or another worker can still act, and
once nothing can act every worker has called wg.Done()); and every step
strictly decreases a finite measure, so every run terminates — no
worker blocks permanently and the active-worker count is 0 when the
dispatcher's wg.Wait() returns. -/
theorem worker_pool_no_leak :
    (∀ s : pool.PoolState, (∀ t, ¬ pool.PStep s t) → s.active = 0) ∧
    (∀ s t, pool.PStep s t → pool.poolMeasure t < pool.poolMeasure s) := by
  constructor
  · rintro ⟨pending, queued, closed, cancelled, active⟩ hstuck
    match active with
    | 0 => rfl
    | a + 1 =>
      exfalso
      cases cancelled
      · cases queued with
        | cons j rest => exact hstuck _ (.consume pending j rest closed false a)
        | nil =>
          cases closed
          · cases pending with
            | nil => exact hstuck _ (.closeChan [] [] false (a + 1) (Or.inl rfl))
            | cons j rest => exact hstuck _ (.send j rest [] (a + 1))
          · exact hstuck _ (.exitClosed pending false a)
      · exact hstuck _ (.exitCancel pending queued closed a)
  · intro s t h
    cases h with
    | send j rest queued a =>
      simp [pool.poolMeasure]
      omega
    | closeChan pending queued c a hc =>
      cases c <;> simp [pool.poolMeasure] <;> omega
    | trip pending queued cl a =>
      cases cl <;> simp [pool.poolMeasure]
    | consume pending j rest cl c a =>
      cases cl <;> cases c <;> simp [pool.poolMeasure]
    | exitCancel pending queued cl a =>
      cases cl <;> simp [pool.poolMeasure]
    | exitClosed pending c a =>
      cases c <;> simp [pool.poolMeasure]

/-- Witness for C8: a concrete worker-exit step decreases the measure. -/
theorem worker_pool_no_leak_witness :
    pool.poolMeasure ⟨[], [], true, true, 0⟩ < pool.poolMeasure ⟨[], [], true, true, 1⟩ :=
  worker_pool_no_leak.2 _ _ (pool.PStep.exitCancel [] [] true 0)

/-- C2: on every non-empty input with no cancellation, ProcessBatch
agrees with Process for every batchSize, and ProcessConcurrent agrees
with Process for every workers count and every arrival order of the
index-tagged results, because each Result carries its original index
and is reassembled by index. -/
theorem process_refinement (data : List Str) (batchSize workers : Int)
    (order : List Nat) (hne : data ≠ [])
    (hperm : order.Perm (List.range data.length)) :
    processor.ProcessBatch data batchSize = processor.Process data ∧
    processor.ProcessConcurrent data workers order = processor.Process data := by
  constructor
  · unfold processor.ProcessBatch processor.Process
    rw [if_neg hne, if_neg hne]
    by_cases hb : batchSize ≤ 0
    · rw [dif_pos hb, batchLoop_eq_map]
    · rw [dif_neg hb, batchLoop_eq_map]
  · unfold processor.ProcessConcurrent processor.Process
    rw [if_neg hne, if_neg hne, collectResults_perm data order hperm]

/-- Witness for C2 at data = ["a"], batchSize = 0, workers = 2,
arrival order [0]. -/
theorem process_refinement_witness :
    processor.ProcessBatch [[97]] 0 = processor.Process [[97]] ∧
    processor.ProcessConcurrent [[97]] 2 [0] = processor.Process [[97]] :=
  process_refinement [[97]] 0 2 [0] (by decide)
    (by decide)

/-- C1 counterexample: at M = 0 jobs (and N = 3 workers, no
cancellation) ProcessConcurrent does not return an empty successful
Result sequence: it rejects the input with an ErrInvalidInput-wrapping
error, so the claim's quantification over M ≥ 0 fails at M = 0. -/
theorem worker_pool_empty_rejected :
    processor.ProcessConcurrent [] 3 [] =
      Except.error (GoError.wraps .invalidInput "empty data") := rfl

/-- C1 (amended): for every number of workers and every M ≥ 1 jobs with
no cancellation, the worker pool returns exactly M Results, one per
submitted job keyed by its index, with no duplicates and no drops;
M = 0 is instead rejected with an invalid-input error before any worker
starts. -/
theorem worker_pool_complete (data : List Str) (workers : Int)
    (order : List Nat) (hne : data ≠ [])
    (hperm : order.Perm (List.range data.length)) :
    ∃ out, processor.ProcessConcurrent data workers order = .ok out ∧
      out.length = data.length ∧
      ∀ i, (h : i < data.length) →
        out[i]? = some (processor.processItem data[i]) := by
  refine ⟨data.map processor.processItem, ?_, by simp, ?_⟩
  · unfold processor.ProcessConcurrent
    rw [if_neg hne, collectResults_perm data order hperm]
  · intro i h
    simp [List.getElem?_map, List.getElem?_eq_getElem h]

/-- Witness for C1 at data = ["a"], 1 worker, arrival order [0]. -/
theorem worker_pool_complete_witness :
    ∃ out, processor.ProcessConcurrent [[97]] 1 [0] = .ok out ∧
      out.length = ([[97]] : List Str).length ∧
      ∀ i, (h : i < ([[97]] : List Str).length) →
        out[i]? = some (processor.processItem ([[97]] : List Str)[i]) :=
  worker_pool_complete [[97]] 1 [0] (by decide) (by decide)

/-- C4 counterexample: submitting the empty input sequence to Process
does not yield an empty Result sequence with no error; it is rejected
with an error wrapping ErrInvalidInput. -/
theorem process_empty_rejected :
    processor.Process [] =
      Except.error (GoError.wraps .invalidInput "empty data") := rfl

/-- C4 (amended): submitting an empty input sequence returns immediately
with no Results and an ErrInvalidInput-wrapping "empty data" error,
rejected before any batch or worker starts, uniformly across Process,
ProcessBatch and ProcessConcurrent. -/
theorem empty_input_rejected (batchSize workers : Int) (order : List Nat) :
    processor.Process [] =
      Except.error (GoError.wraps .invalidInput "empty data") ∧
    processor.ProcessBatch [] batchSize =
      Except.error (GoError.wraps .invalidInput "empty data") ∧
    processor.ProcessConcurrent [] workers order =
      Except.error (GoError.wraps .invalidInput "empty data") :=
  ⟨rfl, rfl, rfl⟩

/-- C7: GetUser on any ID absent from the store returns an
ErrNotFound-wrapping error and no User value; ValidateUser returns an
ErrInvalidInput-wrapping error on every malformed user (empty name, or
age outside [0,150]) and nil on every well-formed user. -/
theorem user_service_errors :
    (∀ (s : example4.UserService) (id : Int), s.users id = none →
      ∃ msg, example4.GetUser s id = .error (.wraps .notFound msg)) ∧
    (∀ u : example4.User, (u.name = "" ∨ u.age < 0 ∨ u.age > 150) →
      ∃ msg, example4.ValidateUser u = some (.wraps .invalidInput msg)) ∧
    (∀ u : example4.User, u.name ≠ "" → 0 ≤ u.age → u.age ≤ 150 →
      example4.ValidateUser u = none) := by
  refine ⟨?_, ?_, ?_⟩
  · intro s id h
    unfold example4.GetUser
    rw [h]
    exact ⟨_, rfl⟩
  · intro u h
    unfold example4.ValidateUser
    by_cases hn : u.name = ""
    · rw [if_pos hn]
      exact ⟨_, rfl⟩
    · have hage : u.age < 0 ∨ u.age > 150 := by tauto
      rw [if_neg hn, if_pos hage]
      exact ⟨_, rfl⟩
  · intro u hn h0 h150
    unfold example4.ValidateUser
    rw [if_neg hn, if_neg (by omega)]

/-- Witness for C7: a missing ID in the empty store, an empty name, and
a well-formed user. -/
theorem user_service_errors_witness :
    (∃ msg, example4.GetUser example4.NewUserService 7 =
      .error (.wraps .notFound msg)) ∧
    (∃ msg, example4.ValidateUser ⟨1, "", 30, 0⟩ =
      some (.wraps .invalidInput msg)) ∧
    example4.ValidateUser ⟨1, "Ada", 30, 0⟩ = none :=
  ⟨user_service_errors.1 example4.NewUserService 7 rfl,
   user_service_errors.2.1 ⟨1, "", 30, 0⟩ (Or.inl rfl),
   user_service_errors.2.2 ⟨1, "Ada", 30, 0⟩ (by decide) (by decide) (by decide)⟩

/-- C9: the create operations are atomic on error — whenever
example4's CreateUser, example3's CreateUser or the task service's
Create returns a non-nil error (validation failure or duplicate ID),
the underlying store is left exactly as it was, so an existing entry is
never overwritten by a failed create. -/
theorem create_atomic_on_error :
    (∀ (now : Nat) (s : example4.UserService) (u : example4.User) (e : GoError),
      (example4.CreateUser now s u).1 = some e →
      (example4.CreateUser now s u).2 = s) ∧
    (∀ (now : Nat) (s : example4.UserService) (u : example4.User) (e : GoError),
      (example3user.createUser now s u).1 = some e →
      (example3user.createUser now s u).2 = s) ∧
    (∀ (now : Nat) (s : taskService.TaskService) (t : taskService.Task) (e : GoError),
      (taskService.Create now s t).1 = some e →
      (taskService.Create now s t).2 = s) := by
  refine ⟨?_, ?_, ?_⟩
  · intro now s u e h
    unfold example4.CreateUser at h ⊢
    cases hv : example4.ValidateUser u with
    | some e' => simp [hv]
    | none =>
      cases hu : s.users u.id with
      | some _ => simp [hv, hu]
      | none => simp [hv, hu] at h
  · intro now s u e h
    unfold example3user.createUser at h ⊢
    cases hv : example3user.validateUser u with
    | some e' => simp [hv]
    | none =>
      cases hu : s.users u.id with
      | some _ => simp [hv, hu]
      | none => simp [hv, hu] at h
  · intro now s t e h
    unfold taskService.Create at h ⊢
    cases hv : taskService.validateTask t with
    | some e' => simp [hv]
    | none =>
      cases ht : s.tasks t.id with
      | some _ => simp [hv, ht]
      | none => simp [hv, ht] at h

/-- Witness for C9: a create with an empty name fails and leaves the
empty store unchanged. -/
theorem create_atomic_on_error_witness :
    (example4.CreateUser 0 example4.NewUserService ⟨1, "", 5, 0⟩).2 =
      example4.NewUserService :=
  create_atomic_on_error.1 0 example4.NewUserService ⟨1, "", 5, 0⟩
    (.wraps .invalidInput "name cannot be empty") rfl
